import Mathlib

/-!
Shallow embedding of `src/main/core/socket-transfer.ts` (class `SocketTransfer`).

JavaScript arrays are modelled by Lean lists; array identity (aliasing,
in-place mutation through a reference) is modelled by a small heap of
target arrays indexed by natural-number references.  Machine numbers are
modelled by `Int` (heartbeat entries can be compared with `< 5`) and `Nat`
(byte counters, ports).  Promises are modelled as pure functions from the
outcome of the underlying asynchronous operation to the resolution /
rejection value.  Events emitted on the `EventEmitter` are modelled as
explicit return values (the payload of the emitted event, or `none` when
no event is emitted).
-/

namespace SocketTransfer

/-- A backend target (`Target` from `./LoadBalancer/types`): identified by
an `id` which is a port number.  `id` is optional in the source type, and
the relay treats a missing or zero (falsy) `id` as "no target". -/
structure Target where
  id : Option Nat
  deriving Repr, DecidableEq

/-- A JavaScript `Error` object, as far as the relay inspects it: an
optional `code` property (e.g. `"EADDRINUSE"`) and a message. -/
structure JsError where
  code : Option String := none
  message : String := ""
  deriving Repr, DecidableEq

/-- A live timer handle owned by the supervisor: either a one-shot
`setTimeout` or a periodic `setInterval`, with its delay. -/
inductive Timer where
  | timeout (delay : Int)
  | interval (delay : Int)
  deriving Repr, DecidableEq

/-- The mutable state of a `SocketTransfer` instance that the claims are
about: the byte counter, the stored heartbeat schedule, the active timer,
the heap of target arrays with the reference held in `this.targets`, and
the TCP port. -/
structure STState where
  bytesTransfer : Nat
  heartbeat : List Int
  timer : Option Timer
  heap : List (List Target)
  targetsRef : Nat
  port : Nat
  deriving Repr, DecidableEq

/-- Contents of the array currently referenced by `this.targets`. -/
def readTargets (st : STState) : List Target :=
  st.heap.getD st.targetsRef []

/-- Contents of an arbitrary array reference in the heap. -/
def readArr (st : STState) (r : Nat) : List Target :=
  st.heap.getD r []

/-- In-place mutation of element `i` of the array at reference `r`
(models a caller writing through an array reference it was handed). -/
def mutateArr (st : STState) (r i : Nat) (v : Target) : STState :=
  { st with heap := st.heap.set r ((st.heap.getD r []).set i v) }

/-! ### Health check (`doCheckWorks`, `healthCheck`) -/

/-- `doCheckWorks(targets)`: runs the checker over every target and
returns the sub-list (in order) of targets for which the checker returned
false.  The checker verdicts for one pass are abstracted as a function
`check : Target → Bool` (the source awaits `shadowChecker(address, id)`
for each target). -/
def doCheckWorks (check : Target → Bool) (targets : List Target) : List Target :=
  targets.filter (fun t => !(check t))

/-- `healthCheck()`: returns the payload of the `health:check:failed`
event, or `none` when no event is emitted.  `pass1` and `pass2` are the
checker verdicts on the first pass (over all targets) and on the second
pass (over the first-pass failures).  Mirrors the source: an empty target
set returns immediately; an empty first-pass failure list short-circuits
the second pass; the event fires only when the final failed list is
non-empty. -/
def healthCheck (pass1 pass2 : Target → Bool) (targets : List Target) :
    Option (List Target) :=
  if targets.length = 0 then none
  else
    let pending := doCheckWorks pass1 targets
    let failed := if pending.length = 0 then pending else doCheckWorks pass2 pending
    if failed.length = 0 then none else some failed

/-! ### Heartbeat schedule and timers -/

/-- Core of `setHealthCheckTimer`: from the current heartbeat list,
the timer installed and the heartbeat list afterwards (`shift()` removes
the head when the list has more than one element).  With a single element
a periodic interval of that duration is installed.  The empty case is
unreachable from any state with a non-empty schedule (the constructor and
`setHeartBeat` only store non-empty schedules); the source would read
`this.heartbeat[0]` as `undefined` there, modelled as delay `0`. -/
def schedStep : List Int → Timer × List Int
  | a :: b :: rest => (Timer.timeout a, b :: rest)
  | [a] => (Timer.interval a, [a])
  | [] => (Timer.interval 0, [])

/-- `setHealthCheckTimer()` as a state transformer: installs the timer
computed by `schedStep` and stores the shifted schedule.  (The `immediate`
flag only controls whether `healthCheck` runs right away; it does not
change the stored state.) -/
def setHealthCheckTimer (st : STState) : STState :=
  let p := schedStep st.heartbeat
  { st with timer := some p.1, heartbeat := p.2 }

/-- The sequence of inter-check delays produced by letting the scheduler
run for `k` timer firings, starting from heartbeat list `hb`: a one-shot
`setTimeout` fires once (its callback re-enters `setHealthCheckTimer`),
a `setInterval` fires forever with the same delay.  Every firing invokes
`healthCheck` exactly once (the timeout callback passes `immediate =
true`; the interval calls `healthCheck` directly). -/
def runSched : List Int → Nat → List Int
  | _, 0 => []
  | hb, k + 1 =>
    match schedStep hb with
    | (Timer.timeout d, hb') => d :: runSched hb' k
    | (Timer.interval d, _) => List.replicate (k + 1) d

/-! ### `setHeartBeat` -/

/-- A runtime value handed to `setHeartBeat`: a number, or anything whose
`typeof` is not `'number'`. -/
inductive HBVal where
  | num (n : Int)
  | nonNum
  deriving Repr, DecidableEq

/-- The validation predicate of `setHeartBeat`: an entry is invalid when
`typeof val !== 'number' || val < 5`. -/
def hbInvalid : HBVal → Bool
  | HBVal.num n => n < 5
  | HBVal.nonNum => true

/-- Numeric value of a heartbeat entry (total; only applied after
validation, when every entry is a number). -/
def hbNum : HBVal → Int
  | HBVal.num n => n
  | HBVal.nonNum => 0

/-- The literal message of the error thrown by `setHeartBeat`. -/
def heartbeatErrMsg : String :=
  "SocketTransfer: heartbeat must be an positive number and no less that 5(seconds)."

/-- `setHeartBeat(heartbeat)`: the argument is normalised to an array by
`[].concat`, modelled by taking a list directly.  An empty array returns
immediately.  Otherwise each entry is validated (the `forEach` throws at
the first invalid entry, before any state is mutated); on success the
schedule is stored, any active timer is cleared, and the scheduler is
re-installed.  Returns the new state and the thrown error message, if
any (a thrown error leaves the state untouched). -/
def setHeartBeat (st : STState) (input : List HBVal) : STState × Option String :=
  if input.length = 0 then (st, none)
  else if input.any hbInvalid then (st, some heartbeatErrMsg)
  else
    let st1 := { st with heartbeat := input.map hbNum, timer := none }
    (setHealthCheckTimer st1, none)

/-- `stopHealthCheck()`: clears the active timer
(`this.timer && clearInterval(this.timer)`). -/
def stopHealthCheck (st : STState) : STState :=
  { st with timer := none }

/-! ### Target registry facade -/

/-- `setTargets(targets)`: stores the caller's array reference in
`this.targets` (no copy is taken) and reseats the balancer.  The balancer
(`./LoadBalancer`, outside this file's scope) holds no state any claim
here depends on, so only the registry update is modelled. -/
def setTargets (st : STState) (r : Nat) : STState :=
  { st with targetsRef := r }

/-- `pushTargets(targets)`: appends the given targets in place to the
array referenced by `this.targets` (`this.targets.push(...targets)`),
without any deduplication, then reseats the balancer. -/
def pushTargets (st : STState) (ts : List Target) : STState :=
  { st with heap := st.heap.set st.targetsRef (readTargets st ++ ts) }

/-- `getTargets()`: returns `[...this.targets]` — a freshly allocated
array holding the same elements.  Returns the new state (heap grown by
one array) and the reference to the fresh array. -/
def getTargets (st : STState) : STState × Nat :=
  ({ st with heap := st.heap ++ [readTargets st] }, st.heap.length)

/-- `setTargetsWithFilter(filter)`: `this.targets.filter(...)` allocates
a new array with the retained elements (in order); the field is pointed
at it and `setTargets` is called with the same array. -/
def setTargetsWithFilter (st : STState) (p : Target → Bool) : STState :=
  let fresh := (readTargets st).filter p
  setTargets { st with heap := st.heap ++ [fresh] } st.heap.length

/-! ### TCP relay connection handler (`init`) -/

/-- The guard `!target || !target.id` of the connection handler: no target
was picked, or the picked target's `id` is falsy (absent or `0`). -/
def targetFalsy : Option Target → Bool
  | none => true
  | some t =>
    match t.id with
    | none => true
    | some n => n == 0

/-- The port dialled for a picked target (`+target.id`). -/
def targetPort : Option Target → Nat
  | none => 0
  | some t => t.id.getD 0

/-- The literal body written to a client when no target is available. -/
def notReadyMsg : String := "socket transfer not ready!"

/-- Observable actions the connection handler performs on one accepted
client connection. -/
inductive ConnAct where
  | emitErrorLoadBalancer
  | endClient (body : String)
  | installEndHandler
  | installErrorHandler
  | dial (host : String) (port : Nat)
  | installRemoteErrorHandler
  deriving Repr, DecidableEq

/-- The connection handler installed by `init()`, as the sequence of
actions taken for one accepted connection, given the result of
`this.lb.pickOne()`.  On a falsy target: emit `error:loadbalancer` (via
`onLoadBalancerError`) and end the client with the not-ready body — no
handlers are installed and no remote is dialled.  Otherwise: install the
`end` handler (which accumulates `bytesRead + bytesWritten` into
`bytesTransfer`), install the local `error` handler, dial
`(bind, +target.id)`, and install the remote `error` handler. -/
def onConnection (bind : String) (picked : Option Target) : List ConnAct :=
  if targetFalsy picked then
    [ConnAct.emitErrorLoadBalancer, ConnAct.endClient notReadyMsg]
  else
    [ConnAct.installEndHandler, ConnAct.installErrorHandler,
      ConnAct.dial bind (targetPort picked), ConnAct.installRemoteErrorHandler]

/-- The client `end` handler of a relayed session:
`this.bytesTransfer += (c.bytesRead + c.bytesWritten)`. -/
def onClientEnd (st : STState) (bytesRead bytesWritten : Nat) : STState :=
  { st with bytesTransfer := st.bytesTransfer + (bytesRead + bytesWritten) }

/-! ### `listen` -/

/-- Outcome of the underlying bind/listen attempt: either the `listening`
callback fires, or the server emits an error that `onError` re-emits as
`error:socket:transfer` (whose payload's `error` property may be absent). -/
inductive ListenEvt where
  | success
  | errorEvent (e : Option JsError)
  deriving Repr, DecidableEq

/-- How the promise returned by `listen` settles. -/
inductive ListenResult where
  | resolved (v : Option Nat)
  | rejectedString (s : String)
  | rejectedError (e : JsError)
  deriving Repr, DecidableEq

/-- The error code `listen` compares against. -/
def addrInUseCode : String := "EADDRINUSE"

/-- i18n keys looked up by `listen`. -/
def portAlreadyUsedKey : String := "port_already_used"

/-- i18n key for the generic start failure. -/
def failedToStartKey : String := "failed_to_start_socket_transfer"

/-- `listen(port?)`: `if (port) this.port = port` (a falsy `0` leaves the
stored port alone), then binds and listens.  On success the promise
resolves with the `port` argument (which is `undefined` when the caller
omitted it).  On an `error:socket:transfer` event whose error has code
`EADDRINUSE`, it rejects with the localized `port_already_used` message
followed by `this.port`; with any other error object it rejects with that
error; with no error object it rejects with a fresh error carrying the
localized `failed_to_start_socket_transfer` message.  `loc` is the
localization lookup `i18n.__`. -/
def listen (loc : String → String) (st : STState) (portArg : Option Nat)
    (evt : ListenEvt) : STState × ListenResult :=
  let st1 :=
    match portArg with
    | some p => if p ≠ 0 then { st with port := p } else st
    | none => st
  match evt with
  | ListenEvt.success => (st1, ListenResult.resolved portArg)
  | ListenEvt.errorEvent (some e) =>
    if e.code = some addrInUseCode then
      (st1, ListenResult.rejectedString (loc portAlreadyUsedKey ++ toString st1.port))
    else
      (st1, ListenResult.rejectedError e)
  | ListenEvt.errorEvent none =>
    (st1, ListenResult.rejectedError { message := loc failedToStartKey })

/-! ### `unlisten` -/

/-- Behaviour of one UDP forwarder handle's `end()` call: returns
normally or throws. -/
inductive UdpEnd where
  | ok
  | throws
  deriving Repr, DecidableEq

/-- Outcome of `this.server.close(cb)` raced against the 500 ms timeout:
the close callback fires (before or after the timeout, with an optional
error argument), or never fires. -/
inductive CloseOutcome where
  | fires (beforeTimeout : Bool) (err : Option JsError)
  | never
  deriving Repr, DecidableEq

/-- Message of the error `unlisten` resolves with on timeout. -/
def unlistenTimeoutMsg : String := "unlisten timeout"

/-- `unlisten()`: resolves immediately when `this.server` is unset
(dead code in practice — the constructor always assigns it).  Otherwise
`try { udpServers[0].end(); udpServers[1].end() } catch { log }` — when
the first `end` throws, the exception is caught (and the second `end` is
never reached); then `server.close` is raced against a 500 ms timeout.
The promise resolves with the close callback's error argument (possibly
absent, modelled `none`) when the callback wins the race, and with
`Error('unlisten timeout')` otherwise; it never rejects (every fallible
step is inside the `try` or settles via `resolve`).  Returns the list of
UDP handle indices whose `end()` was invoked, and the resolution value
(`none` models resolving with no error). -/
def unlisten (hasServer : Bool) (udp0 udp1 : UdpEnd) (close : CloseOutcome) :
    List Nat × Option JsError :=
  if !hasServer then ([], none)
  else
    let calls :=
      match udp0, udp1 with
      | UdpEnd.ok, _ => [0, 1]
      | UdpEnd.throws, _ => [0]
    let res :=
      match close with
      | CloseOutcome.fires true err => err
      | CloseOutcome.fires false _ => some { message := unlistenTimeoutMsg }
      | CloseOutcome.never => some { message := unlistenTimeoutMsg }
    (calls, res)

/-! ### The supervisor's operations, gathered -/

/-- One public operation of the supervisor (plus the client-`end` handler
of a relayed session), for stating frame properties over everything the
class can do to its state. -/
inductive Op where
  | clientEnd (bytesRead bytesWritten : Nat)
  | opSetTargets (r : Nat)
  | opPushTargets (ts : List Target)
  | opSetTargetsWithFilter (p : Target → Bool)
  | opGetTargets
  | opSetHeartBeat (input : List HBVal)
  | opStopHealthCheck
  | opSetHealthCheckTimer
  | opHealthCheckTick (pass1 pass2 : Target → Bool)
  | opListen (loc : String → String) (portArg : Option Nat) (evt : ListenEvt)
  | opUnlisten (udp0 udp1 : UdpEnd) (close : CloseOutcome)
  | opStop (udp0 udp1 : UdpEnd) (close : CloseOutcome)

/-- Whether the operation is the client-`end` handler. -/
def Op.isClientEnd : Op → Bool
  | Op.clientEnd _ _ => true
  | _ => false

/-- The state after running one operation.  `healthCheck` only emits an
event; `unlisten` only touches the server and UDP handles (not modelled
in `STState`); `stop` is `stopHealthCheck` followed by `unlisten`. -/
def applyOp (st : STState) : Op → STState
  | Op.clientEnd br bw => onClientEnd st br bw
  | Op.opSetTargets r => setTargets st r
  | Op.opPushTargets ts => pushTargets st ts
  | Op.opSetTargetsWithFilter p => setTargetsWithFilter st p
  | Op.opGetTargets => (getTargets st).1
  | Op.opSetHeartBeat input => (setHeartBeat st input).1
  | Op.opStopHealthCheck => stopHealthCheck st
  | Op.opSetHealthCheckTimer => setHealthCheckTimer st
  | Op.opHealthCheckTick _ _ => st
  | Op.opListen loc portArg evt => (listen loc st portArg evt).1
  | Op.opUnlisten _ _ _ => st
  | Op.opStop _ _ _ => stopHealthCheck st

/-! ### Sample data used by witnesses -/

/-- A concrete supervisor state. -/
def sampleState : STState :=
  { bytesTransfer := 0, heartbeat := [300000], timer := none,
    heap := [[]], targetsRef := 0, port := 1080 }

/-- A concrete target. -/
def t1081 : Target := { id := some 1081 }

/-- A concrete state whose registry holds one target. -/
def regState : STState :=
  { bytesTransfer := 0, heartbeat := [300000], timer := none,
    heap := [[t1081]], targetsRef := 0, port := 1080 }

/-- A concrete warm-up heartbeat schedule. -/
def hbSample : List Int := [1000, 2000, 5000]

/-- A concrete outbound-dial host. -/
def sampleBind : String := "0.0.0.0"

/-! ### Heap helper lemmas -/

/-- Reading below the length of the left part of an append. -/
theorem getD_append_left {α : Type} (d : α) (l l' : List α) (n : Nat)
    (h : n < l.length) : (l ++ l').getD n d = l.getD n d := by
  simp [List.getD_eq_getElem?_getD, List.getElem?_append, h]

/-- Reading the element just appended. -/
theorem getD_append_self {α : Type} (d : α) (l : List α) (x : α) :
    (l ++ [x]).getD l.length d = x := by
  simp [List.getD_eq_getElem?_getD, List.getElem?_append]

/-- `set` at a different index does not change a read. -/
theorem getD_set_ne {α : Type} (d : α) (l : List α) (v : α) (i j : Nat)
    (h : i ≠ j) : (l.set i v).getD j d = l.getD j d := by
  simp [List.getD_eq_getElem?_getD, List.getElem?_set_ne h]

/-- `set` at an in-range index is visible to a read at that index. -/
theorem getD_set_self {α : Type} (d : α) (l : List α) (v : α) (i : Nat)
    (h : i < l.length) : (l.set i v).getD i d = v := by
  simp [List.getD_eq_getElem?_getD, List.getElem?_set_self, h]

/-- The array handed out by `getTargets` holds the registry contents. -/
theorem getTargets_reads_registry (st : STState) :
    readArr (getTargets st).1 (getTargets st).2 = readTargets st := by
  simp only [getTargets, readArr]
  exact getD_append_self [] st.heap (readTargets st)

/-! ### Claim theorems -/

/-- C10: `setHeartBeat` with an empty array returns normally, performs no
validation and leaves the stored schedule and the active timer exactly as
they were. -/
theorem setHeartBeat_empty_noop (st : STState) :
    setHeartBeat st [] = (st, none) := rfl

/-- C2: when the (non-empty) input to `setHeartBeat` contains an entry
that is not a number or is below 5, the call throws the heartbeat error
synchronously and the whole state — in particular the stored heartbeat
schedule and the active timer — is exactly what it was before the call. -/
theorem setHeartBeat_invalid_is_atomic (st : STState) (input : List HBVal)
    (h : ∃ v ∈ input, hbInvalid v = true) :
    setHeartBeat st input = (st, some heartbeatErrMsg) := by
  obtain ⟨v, hv, hinv⟩ := h
  have hlen : ¬ input.length = 0 := by
    intro h0
    rw [List.length_eq_zero.mp h0] at hv
    cases hv
  have hany : input.any hbInvalid = true := List.any_eq_true.mpr ⟨v, hv, hinv⟩
  simp [setHeartBeat, hlen, hany]

/-- Witness for C2 at the concrete input `[3]` (a number below 5). -/
theorem setHeartBeat_invalid_witness :
    (∃ v ∈ [HBVal.num 3], hbInvalid v = true) ∧
    setHeartBeat sampleState [HBVal.num 3] = (sampleState, some heartbeatErrMsg) :=
  ⟨⟨HBVal.num 3, by simp, by decide⟩,
    setHeartBeat_invalid_is_atomic sampleState [HBVal.num 3]
      ⟨HBVal.num 3, by simp, by decide⟩⟩

/-- C9: `pushTargets` appends the pushed list to the current registry
contents in order, with no deduplication by id. -/
theorem pushTargets_append (st : STState) (ts : List Target)
    (h : st.targetsRef < st.heap.length) :
    readTargets (pushTargets st ts) = readTargets st ++ ts := by
  simp only [pushTargets, readTargets]
  exact getD_set_self [] st.heap _ st.targetsRef h

/-- Witness for C9: pushing a target whose id already occurs duplicates it. -/
theorem pushTargets_append_witness :
    readTargets (pushTargets regState [t1081]) = [t1081, t1081] := by
  have h := pushTargets_append regState [t1081] (by decide)
  rw [h]
  decide

/-- C8: after `setTargets` with an array whose contents are `T`, the array
handed out by `getTargets` holds exactly `T`; and that array is a fresh
copy — writing any element through the handed-out reference changes
neither the registry contents nor what a subsequent `getTargets` hands
out. -/
theorem setTargets_getTargets_roundtrip (st : STState) (r : Nat)
    (T : List Target) (hr : r < st.heap.length) (hT : st.heap.getD r [] = T) :
    readArr (getTargets (setTargets st r)).1 (getTargets (setTargets st r)).2 = T ∧
    (∀ i v,
      readTargets
        (mutateArr (getTargets (setTargets st r)).1 (getTargets (setTargets st r)).2 i v) = T ∧
      readArr
        (getTargets (mutateArr (getTargets (setTargets st r)).1
          (getTargets (setTargets st r)).2 i v)).1
        (getTargets (mutateArr (getTargets (setTargets st r)).1
          (getTargets (setTargets st r)).2 i v)).2 = T) := by
  have hread1 : readTargets (setTargets st r) = T := by
    simpa [setTargets, readTargets] using hT
  have hA : readArr (getTargets (setTargets st r)).1 (getTargets (setTargets st r)).2 = T := by
    rw [getTargets_reads_registry, hread1]
  refine ⟨hA, fun i v => ?_⟩
  have hne : st.heap.length ≠ r := Nat.ne_of_gt hr
  have hmut : readTargets
      (mutateArr (getTargets (setTargets st r)).1 (getTargets (setTargets st r)).2 i v) = T := by
    simp only [mutateArr, readTargets, getTargets, setTargets]
    rw [getD_set_ne _ _ _ _ _ hne, getD_append_left _ _ _ _ hr, hT]
  exact ⟨hmut, by rw [getTargets_reads_registry, hmut]⟩

/-- Witness for C8 at a concrete one-target registry. -/
theorem setTargets_getTargets_witness :
    (0 < regState.heap.length ∧ regState.heap.getD 0 [] = [t1081]) ∧
    readArr (getTargets (setTargets regState 0)).1 (getTargets (setTargets regState 0)).2
      = [t1081] ∧
    readTargets
      (mutateArr (getTargets (setTargets regState 0)).1
        (getTargets (setTargets regState 0)).2 0 { id := none }) = [t1081] :=
  ⟨⟨by decide, by decide⟩,
    (setTargets_getTargets_roundtrip regState 0 [t1081] (by decide) (by decide)).1,
    ((setTargets_getTargets_roundtrip regState 0 [t1081] (by decide) (by decide)).2
      0 { id := none }).1⟩

/-- `healthCheck` in normal form: for a non-empty target set the emitted
payload is the two-pass failure list, and no event fires when that list
is empty. -/
theorem healthCheck_eq (p1 p2 : Target → Bool) (ts : List Target) (h : ts ≠ []) :
    healthCheck p1 p2 ts =
      (if ((ts.filter fun t => !(p1 t)).filter fun t => !(p2 t)).length = 0 then none
       else some ((ts.filter fun t => !(p1 t)).filter fun t => !(p2 t))) := by
  have hne : ¬ ts.length = 0 := by
    simpa [List.length_eq_zero] using h
  simp only [healthCheck, doCheckWorks, if_neg hne]
  by_cases hp : (ts.filter fun t => !(p1 t)).length = 0
  · rw [List.length_eq_zero] at hp
    simp [hp]
  · simp [hp]

/-- C1: two-pass health-check retry.  For every non-empty target set, a
target occurs in the `health:check:failed` payload iff it is a target on
which the checker returned false on pass 1 and false again on pass 2 over
the pass-1 failures; and no event is emitted iff every target passed one
of the two passes (in particular, when the final failed subset is empty). -/
theorem healthCheck_two_pass_retry (p1 p2 : Target → Bool) (ts : List Target)
    (h : ts ≠ []) :
    (∀ t : Target, (∃ fs, healthCheck p1 p2 ts = some fs ∧ t ∈ fs) ↔
      (t ∈ ts ∧ p1 t = false ∧ p2 t = false)) ∧
    (healthCheck p1 p2 ts = none ↔ ∀ t ∈ ts, p1 t = true ∨ p2 t = true) := by
  rw [healthCheck_eq p1 p2 ts h]
  have hmem : ∀ t : Target,
      t ∈ ((ts.filter fun t => !(p1 t)).filter fun t => !(p2 t)) ↔
        (t ∈ ts ∧ p1 t = false ∧ p2 t = false) := by
    intro t
    simp only [List.mem_filter, Bool.not_eq_true']
    tauto
  by_cases h0 : ((ts.filter fun t => !(p1 t)).filter fun t => !(p2 t)).length = 0
  · have hnil := List.length_eq_zero.mp h0
    constructor
    · intro t
      simp only [if_pos h0]
      constructor
      · rintro ⟨fs, hfs, -⟩
        cases hfs
      · intro hc
        have := (hmem t).mpr hc
        rw [hnil] at this
        cases this
    · simp only [if_pos h0, true_iff]
      intro t ht
      by_cases hp1 : p1 t = true
      · exact Or.inl hp1
      · by_cases hp2 : p2 t = true
        · exact Or.inr hp2
        · have : t ∈ ((ts.filter fun t => !(p1 t)).filter fun t => !(p2 t)) :=
            (hmem t).mpr ⟨ht, Bool.not_eq_true _ ▸ Bool.eq_false_iff.mpr hp1,
              Bool.eq_false_iff.mpr hp2⟩
          rw [hnil] at this
          cases this
  · constructor
    · intro t
      simp only [if_neg h0]
      constructor
      · rintro ⟨fs, hfs, hm⟩
        cases hfs
        exact (hmem t).mp hm
      · intro hc
        exact ⟨_, rfl, (hmem t).mpr hc⟩
    · simp only [if_neg h0]
      constructor
      · intro hfs
        cases hfs
      · intro hall
        exfalso
        obtain ⟨t, ht⟩ := List.exists_mem_of_ne_nil
          ((ts.filter fun t => !(p1 t)).filter fun t => !(p2 t))
          (fun hnil => h0 (by rw [hnil]; rfl))
        obtain ⟨hts, hf1, hf2⟩ := (hmem t).mp ht
        rcases hall t hts with hp | hp
        · rw [hp] at hf1
          cases hf1
        · rw [hp] at hf2
          cases hf2

/-- Witness for C1: with one target failing both passes, the event fires
and carries that target. -/
theorem healthCheck_two_pass_witness :
    ([t1081] ≠ ([] : List Target)) ∧
    (∃ fs, healthCheck (fun _ => false) (fun _ => false) [t1081] = some fs ∧ t1081 ∈ fs) :=
  ⟨by simp,
    ((healthCheck_two_pass_retry (fun _ => false) (fun _ => false) [t1081]
      (by simp)).1 t1081).mpr ⟨by simp, rfl, rfl⟩⟩

/-- Closed form of the scheduler's delay sequence: starting from any
non-empty heartbeat list, the `k`-th inter-check delay is the `k`-th
schedule entry while the prefix lasts and the last entry afterwards. -/
theorem runSched_closed : ∀ (hb : List Int), hb ≠ [] → ∀ (k : Nat),
    runSched hb k = List.ofFn (fun i : Fin k => hb.getD (min i.val (hb.length - 1)) 0) := by
  intro hb
  induction hb with
  | nil => intro h; exact absurd rfl h
  | cons a tl ih =>
    intro _ k
    cases tl with
    | nil =>
      cases k with
      | zero => rfl
      | succ k =>
        have hstep : runSched [a] (k + 1) = List.replicate (k + 1) a := by
          simp [runSched, schedStep]
        rw [hstep, ← List.ofFn_const (k + 1) a]
        congr 1
        funext i
        simp
    | cons b tl2 =>
      cases k with
      | zero => rfl
      | succ k =>
        have hstep : runSched (a :: b :: tl2) (k + 1) = a :: runSched (b :: tl2) k := by
          simp [runSched, schedStep]
        rw [hstep, ih (List.cons_ne_nil b tl2) k, List.ofFn_succ]
        congr 1
        congr 1
        funext i
        simp [Nat.succ_min_succ]

/-- C7: heartbeat scheduling.  For every schedule of length greater than
one, the scheduler installs a one-shot `setTimeout` of the head and keeps
the tail (recursing when it fires, each firing invoking `healthCheck`
once), switching to a periodic `setInterval` once a single element
remains — so the inter-check delays are the schedule's prefix elements in
order followed by the last element repeated indefinitely. -/
theorem heartbeat_schedule_delays (hb : List Int) (h : 1 < hb.length) :
    (∃ a b rest, hb = a :: b :: rest ∧ schedStep hb = (Timer.timeout a, b :: rest)) ∧
    (∀ a, schedStep [a] = (Timer.interval a, [a])) ∧
    (∀ k, runSched hb k =
      List.ofFn (fun i : Fin k => hb.getD (min i.val (hb.length - 1)) 0)) := by
  refine ⟨?_, fun a => rfl, runSched_closed hb ?_⟩
  · match hb, h with
    | a :: b :: rest, _ => exact ⟨a, b, rest, rfl, rfl⟩
  · match hb, h with
    | a :: b :: rest, _ => exact List.cons_ne_nil a (b :: rest)

/-- Witness for C7 at the warm-up schedule `[1000, 2000, 5000]`: the
first five delays are `1000, 2000, 5000, 5000, 5000`. -/
theorem heartbeat_schedule_witness :
    (1 < hbSample.length) ∧
    runSched hbSample 5 =
      List.ofFn (fun i : Fin 5 => hbSample.getD (min i.val (hbSample.length - 1)) 0) ∧
    runSched hbSample 5 = [1000, 2000, 5000, 5000, 5000] :=
  ⟨by decide, (heartbeat_schedule_delays hbSample (by decide)).2.2 5, by decide⟩

/-- C4: no-target accept path.  For every accepted connection on which
`pickOne` returned no target (or a target with a falsy `id`), the handler
performs exactly: emit one `error:loadbalancer` event, then end the client
with the literal body `socket transfer not ready!`; in particular the
event is emitted exactly once, no remote is dialled, and no `end` handler
is installed (so `bytesTransfer` is never touched for that connection). -/
theorem noTarget_accept_path (bind : String) (picked : Option Target)
    (h : targetFalsy picked = true) :
    onConnection bind picked =
      [ConnAct.emitErrorLoadBalancer, ConnAct.endClient notReadyMsg] ∧
    (onConnection bind picked).count ConnAct.emitErrorLoadBalancer = 1 ∧
    (∀ host p, ConnAct.dial host p ∉ onConnection bind picked) ∧
    ConnAct.installEndHandler ∉ onConnection bind picked := by
  have he : onConnection bind picked =
      [ConnAct.emitErrorLoadBalancer, ConnAct.endClient notReadyMsg] := by
    simp [onConnection, h]
  refine ⟨he, ?_, ?_, ?_⟩
  · rw [he]
    rfl
  · intro host p
    rw [he]
    simp
  · rw [he]
    simp

/-- Witness for C4: `pickOne` returned no target. -/
theorem noTarget_accept_witness :
    targetFalsy none = true ∧
    onConnection sampleBind none =
      [ConnAct.emitErrorLoadBalancer, ConnAct.endClient notReadyMsg] :=
  ⟨rfl, (noTarget_accept_path sampleBind none rfl).1⟩

/-- `setHeartBeat` never touches the byte counter. -/
theorem setHeartBeat_bytes (st : STState) (input : List HBVal) :
    ((setHeartBeat st input).1).bytesTransfer = st.bytesTransfer := by
  unfold setHeartBeat
  split
  · rfl
  · split
    · rfl
    · rfl

/-- `listen` never touches the byte counter. -/
theorem listen_bytes (loc : String → String) (st : STState) (portArg : Option Nat)
    (evt : ListenEvt) : ((listen loc st portArg evt).1).bytesTransfer = st.bytesTransfer := by
  unfold listen
  cases evt with
  | success =>
    cases portArg with
    | none => rfl
    | some p =>
      by_cases hp : p ≠ 0
      · simp [hp]
      · simp [hp]
  | errorEvent e =>
    cases e with
    | none =>
      cases portArg with
      | none => rfl
      | some p =>
        by_cases hp : p ≠ 0
        · simp [hp]
        · simp [hp]
    | some err =>
      cases portArg with
      | none =>
        by_cases hc : err.code = some addrInUseCode
        · simp [hc]
        · simp [hc]
      | some p =>
        by_cases hc : err.code = some addrInUseCode <;>
          by_cases hp : p ≠ 0 <;>
            simp [hc, hp]

/-- C5: byte accounting.  The client-`end` handler of a relayed session
adds exactly `bytesRead + bytesWritten` to `bytesTransfer`; every
operation of the supervisor leaves `bytesTransfer` unchanged except that
handler, so the counter is monotonically non-decreasing and is never
reset. -/
theorem bytesTransfer_accounting (st : STState) (br bw : Nat) (op : Op) :
    (onClientEnd st br bw).bytesTransfer = st.bytesTransfer + (br + bw) ∧
    st.bytesTransfer ≤ (applyOp st op).bytesTransfer ∧
    (Op.isClientEnd op = false →
      (applyOp st op).bytesTransfer = st.bytesTransfer) := by
  have heq : Op.isClientEnd op = false →
      (applyOp st op).bytesTransfer = st.bytesTransfer := by
    intro hne
    cases op with
    | clientEnd a b => cases hne
    | opSetTargets r => rfl
    | opPushTargets ts => rfl
    | opSetTargetsWithFilter p => rfl
    | opGetTargets => rfl
    | opSetHeartBeat input => exact setHeartBeat_bytes st input
    | opStopHealthCheck => rfl
    | opSetHealthCheckTimer => rfl
    | opHealthCheckTick p1 p2 => rfl
    | opListen loc portArg evt => exact listen_bytes loc st portArg evt
    | opUnlisten u0 u1 c => rfl
    | opStop u0 u1 c => rfl
  refine ⟨rfl, ?_, heq⟩
  cases hop : Op.isClientEnd op with
  | false => exact Nat.le_of_eq (heq hop).symm
  | true =>
    cases op with
    | clientEnd a b => exact Nat.le_add_right _ _
    | opSetTargets r => cases hop
    | opPushTargets ts => cases hop
    | opSetTargetsWithFilter p => cases hop
    | opGetTargets => cases hop
    | opSetHeartBeat input => cases hop
    | opStopHealthCheck => cases hop
    | opSetHealthCheckTimer => cases hop
    | opHealthCheckTick p1 p2 => cases hop
    | opListen loc portArg evt => cases hop
    | opUnlisten u0 u1 c => cases hop
    | opStop u0 u1 c => cases hop

/-- Witness for C5: a non-`clientEnd` operation leaves the counter as is. -/
theorem bytesTransfer_accounting_witness :
    Op.isClientEnd Op.opStopHealthCheck = false ∧
    (applyOp sampleState Op.opStopHealthCheck).bytesTransfer = sampleState.bytesTransfer :=
  ⟨rfl, (bytesTransfer_accounting sampleState 0 0 Op.opStopHealthCheck).2.2 rfl⟩

/-- C3 counterexample: calling `listen` with no port argument, with a
successful bind, resolves with `undefined` (the omitted argument), not
with the bound port (`1080` here) — `resolve(port)` resolves with the
parameter, not `this.port`. -/
theorem listen_resolve_counterexample :
    (listen id sampleState none ListenEvt.success).2 ≠
      ListenResult.resolved (some (listen id sampleState none ListenEvt.success).1.port) := by
  decide

/-- C3 (amended): on successful bind the promise resolves with the `port`
argument (which equals the bound port whenever a non-zero port was
passed, and is `undefined` when omitted); on an `EADDRINUSE` error it
rejects with the localized `port_already_used` message followed by the
bound port; on any other error it rejects with that error, or with a
fresh error carrying the localized `failed_to_start_socket_transfer`
message when no error object is available. -/
theorem listen_result_contract (loc : String → String) (st : STState)
    (portArg : Option Nat) (evt : ListenEvt) :
    (evt = ListenEvt.success →
      (listen loc st portArg evt).2 = ListenResult.resolved portArg) ∧
    (∀ p, portArg = some p → p ≠ 0 → (listen loc st portArg evt).1.port = p) ∧
    (∀ e, evt = ListenEvt.errorEvent (some e) → e.code = some addrInUseCode →
      (listen loc st portArg evt).2 = ListenResult.rejectedString
        (loc portAlreadyUsedKey ++ toString (listen loc st portArg evt).1.port)) ∧
    (∀ e, evt = ListenEvt.errorEvent (some e) → e.code ≠ some addrInUseCode →
      (listen loc st portArg evt).2 = ListenResult.rejectedError e) ∧
    (evt = ListenEvt.errorEvent none →
      (listen loc st portArg evt).2 =
        ListenResult.rejectedError { code := none, message := loc failedToStartKey }) := by
  refine ⟨?_, ?_, ?_, ?_, ?_⟩
  · rintro rfl
    cases portArg with
    | none => rfl
    | some p => by_cases hp : p ≠ 0 <;> simp [listen, hp]
  · rintro p rfl hp
    cases evt with
    | success => simp [listen, hp]
    | errorEvent e =>
      cases e with
      | none => simp [listen, hp]
      | some err =>
        by_cases hc : err.code = some addrInUseCode <;> simp [listen, hp, hc]
  · rintro e rfl hc
    cases portArg with
    | none => simp [listen, hc]
    | some p => by_cases hp : p ≠ 0 <;> simp [listen, hp, hc]
  · rintro e rfl hc
    cases portArg with
    | none => simp [listen, hc]
    | some p => by_cases hp : p ≠ 0 <;> simp [listen, hp, hc]
  · rintro rfl
    cases portArg with
    | none => rfl
    | some p => by_cases hp : p ≠ 0 <;> simp [listen, hp]

/-- Witness for C3 (amended): a bind failing with `EADDRINUSE` on port
`1080` rejects with the localized prefix followed by `1080`. -/
theorem listen_result_contract_witness :
    (listen id sampleState (some 1080)
        (ListenEvt.errorEvent (some { code := some addrInUseCode }))).2 =
      ListenResult.rejectedString (portAlreadyUsedKey ++ toString 1080) := by
  have h := (listen_result_contract id sampleState (some 1080)
      (ListenEvt.errorEvent (some { code := some addrInUseCode }))).2.2.1
    { code := some addrInUseCode } rfl rfl
  rw [h]
  rfl

/-- C6 counterexample: when the first UDP handle's `end()` throws, the
second handle's `end()` is never called (the `try` block is exited),
so `unlisten` does not call `end()` on both handles. -/
theorem unlisten_end_calls_counterexample :
    (unlisten true UdpEnd.throws UdpEnd.ok (CloseOutcome.fires true none)).1 ≠ [0, 1] := by
  decide

/-- C6 (amended): `unlisten` always resolves, never rejects: with the
close callback's argument when the close completes within 500 ms, and
with `Error('unlisten timeout')` otherwise.  Before closing the listener
it calls `end()` on the first UDP handle and — when that call did not
throw — on the second; any exception from those calls is caught and
swallowed, leaving the resolution unaffected. -/
theorem unlisten_contract (udp0 udp1 : UdpEnd) (close : CloseOutcome) :
    (∀ err, close = CloseOutcome.fires true err →
      (unlisten true udp0 udp1 close).2 = err) ∧
    (∀ err, close = CloseOutcome.fires false err →
      (unlisten true udp0 udp1 close).2 =
        some { code := none, message := unlistenTimeoutMsg }) ∧
    (close = CloseOutcome.never →
      (unlisten true udp0 udp1 close).2 =
        some { code := none, message := unlistenTimeoutMsg }) ∧
    ((unlisten true udp0 udp1 close).2 = (unlisten true UdpEnd.ok UdpEnd.ok close).2) ∧
    ((unlisten true udp0 udp1 close).1 =
      if udp0 = UdpEnd.ok then [0, 1] else [0]) := by
  refine ⟨?_, ?_, ?_, ?_, ?_⟩
  · rintro err rfl
    cases udp0 <;> cases udp1 <;> rfl
  · rintro err rfl
    cases udp0 <;> cases udp1 <;> rfl
  · rintro rfl
    cases udp0 <;> cases udp1 <;> rfl
  · cases udp0 <;> cases udp1 <;> cases close <;> rfl
  · cases udp0 <;> cases udp1 <;> simp [unlisten]

/-- Witness for C6 (amended): a close that never completes resolves with
the timeout error. -/
theorem unlisten_contract_witness :
    (unlisten true UdpEnd.ok UdpEnd.ok CloseOutcome.never).2 =
      some { code := none, message := unlistenTimeoutMsg } :=
  (unlisten_contract UdpEnd.ok UdpEnd.ok CloseOutcome.never).2.2.1 rfl

end SocketTransfer
